import Mathlib

/-!
Verification of the NovelGenerator orchestration core against its design
specification.  The definitions below are shallow embeddings of the
TypeScript sources:

* src/services/geminiService.ts — error classification, retry with
  backoff, priority request queue;
* the API resilience manager (apiResilienceUtils) — availability status
  and observer notification;
* the chapter-editing agent (agent module) — the bounded
  decide/execute/evaluate refinement loop;
* src/hooks/useBookGenerator.ts — the chapter-plan generation phase and
  its failure handling.

External LLM calls are modelled as oracle functions supplied as
parameters; everything the program itself computes is translated
directly from the source.
-/

namespace NovelGen

/-- JS-style substring test, modelling `String.prototype.includes`. -/
def includes (s pat : String) : Bool := decide (pat.toList <:+: s.toList)

/-! ## Resilience wrapper: error classification and retry with backoff
    (src/services/geminiService.ts) -/

/-- retryWithBackoff lines 52-53: errors whose message carries one of these
markers are treated as permanent and never retried. -/
def isPermanentMsg (m : String) : Bool :=
  includes m "API key not valid" || includes m "quota exceeded"

/-- Overload marker test (geminiService.ts lines 67-69 and 25). -/
def isOverloadMsg (m : String) : Bool :=
  includes m "UNAVAILABLE" || includes m "overloaded" || includes m "503"

/-- Rate-limit marker test (geminiService.ts lines 71-72 and 27). -/
def isRateLimitMsg (m : String) : Bool :=
  includes m "RESOURCE_EXHAUSTED" || includes m "429"

/-- Delay computed before the next retry, jitter excluded
(geminiService.ts lines 63-74): exponential base, raised to the class
floor for overload and rate-limit errors. -/
def computeDelay (m : String) (baseDelay attempt : Nat) : Nat :=
  let d := baseDelay * 2 ^ attempt
  if isOverloadMsg m then max d (5000 + attempt * 3000)
  else if isRateLimitMsg m then max d (10000 + attempt * 5000)
  else d

/-- handleApiError (geminiService.ts lines 17-33): rewrites a raw service
error message into a user-facing one.  Note that the rewritten texts for
the invalid-key and quota cases no longer contain the substrings that
`isPermanentMsg` looks for. -/
def handleApiError (m : String) : String :=
  if includes m "API key not valid" then
    "Gemini API Error: The provided API key is not valid. Please check your configuration."
  else if includes m "quota" then
    "Gemini API Error: You have exceeded your API quota. Please check your Google AI Studio account."
  else if isOverloadMsg m then
    "Gemini API Error: Service is temporarily overloaded. Retrying..."
  else if isRateLimitMsg m then
    "Gemini API Error: Rate limit exceeded. Waiting before retry..."
  else
    "Gemini API Error: " ++ m

/-- Observable outcome of one run of retryWithBackoff: the value or final
error, the number of attempts of the wrapped call, and the backoff delays
(jitter excluded) inserted between attempts. -/
structure RetryRun (α : Type) where
  result : Except String α
  attempts : Nat
  delays : List Nat
deriving Repr

/-- The retry loop body (geminiService.ts lines 45-85).  `fn k` is the
outcome of attempt number `k` (zero-based, mirroring the loop counter).
The fuel argument equals `maxRetries + 1 - attempt` on every reachable
call, so the fuel-exhausted branch mirrors the unreachable
`throw lastError` after the loop. -/
def retryGo (fn : Nat → Except String α) (maxRetries baseDelay : Nat) :
    Nat → Nat → RetryRun α
  | 0, _ => ⟨.error "Retry failed", 0, []⟩
  | fuel + 1, attempt =>
    match fn attempt with
    | .ok a => ⟨.ok a, 1, []⟩
    | .error m =>
      if isPermanentMsg m then ⟨.error m, 1, []⟩
      else if attempt = maxRetries then ⟨.error m, 1, []⟩
      else
        let rest := retryGo fn maxRetries baseDelay fuel (attempt + 1)
        ⟨rest.result, rest.attempts + 1, computeDelay m baseDelay attempt :: rest.delays⟩

/-- retryWithBackoff (geminiService.ts lines 38-88); the defaults at the
call sites are maxRetries = 5 and baseDelay = 2000. -/
def retryWithBackoff (fn : Nat → Except String α) (maxRetries baseDelay : Nat) :
    RetryRun α :=
  retryGo fn maxRetries baseDelay (maxRetries + 1) 0

/-- Error path of generateGeminiText (geminiService.ts lines 91-133): every
attempt catches the raw service error and rethrows it rewritten by
handleApiError before retryWithBackoff classifies it. -/
def generateGeminiTextRun (raw : Nat → Except String String) : RetryRun String :=
  retryWithBackoff
    (fun k => match raw k with
      | .ok t => .ok t
      | .error e => .error (handleApiError e))
    5 2000

theorem retryGo_attempts_le (fn : Nat → Except String α) (mr b : Nat) :
    ∀ fuel attempt, (retryGo fn mr b fuel attempt).attempts ≤ fuel := by
  intro fuel
  induction fuel with
  | zero => intro attempt; simp [retryGo]
  | succ f ih =>
    intro attempt
    cases hfn : fn attempt with
    | ok a => simp [retryGo, hfn]
    | error m =>
      by_cases hperm : isPermanentMsg m = true
      · simp [retryGo, hfn, hperm]
      · by_cases hlast : attempt = mr
        · subst hlast
          simp [retryGo, hfn, hperm]
        · have h := ih (attempt + 1)
          simp only [retryGo, hfn, hperm, hlast, Bool.false_eq_true, if_false, ite_false]
          omega

theorem retryGo_last_error (fn : Nat → Except String α) (mr b : Nat) :
    ∀ fuel attempt m, attempt + fuel = mr + 1 → attempt ≤ mr →
      (retryGo fn mr b fuel attempt).result = .error m →
      fn (attempt + (retryGo fn mr b fuel attempt).attempts - 1) = .error m := by
  intro fuel
  induction fuel with
  | zero => intro attempt m h1 h2 _; omega
  | succ f ih =>
    intro attempt m h1 h2 hres
    cases hfn : fn attempt with
    | ok a => simp [retryGo, hfn] at hres
    | error m0 =>
      by_cases hperm : isPermanentMsg m0 = true
      · simp [retryGo, hfn, hperm] at hres ⊢
        exact hres
      · by_cases hlast : attempt = mr
        · subst hlast
          simp [retryGo, hfn, hperm] at hres ⊢
          exact hres
        · simp only [retryGo, hfn, hperm, hlast, Bool.false_eq_true, if_false,
            ite_false] at hres ⊢
          have hrec := ih (attempt + 1) m (by omega) (by omega) hres
          have hidx : attempt + ((retryGo fn mr b f (attempt + 1)).attempts + 1) - 1
              = attempt + 1 + (retryGo fn mr b f (attempt + 1)).attempts - 1 := by
            omega
          rw [hidx]
          exact hrec

set_option maxRecDepth 100000 in
/-- C2 — failing-input evaluation: a raw invalid-API-key service error is
rewritten by handleApiError into a message that no longer contains the
marker "API key not valid" that retryWithBackoff checks, so the permanent
error is retried: the composed text call makes all 6 attempts instead of
failing after 1, contradicting both the specification and the source's
own comment that permanent errors are not retried. -/
theorem C2_permanent_error_is_retried :
    (generateGeminiTextRun
      (fun _ => .error "API key not valid. Please pass a valid API key.")).attempts = 6 ∧
    (generateGeminiTextRun
      (fun _ => .error "API key not valid. Please pass a valid API key.")).result =
      .error "Gemini API Error: The provided API key is not valid. Please check your configuration." := by
  exact ⟨rfl, rfl⟩

set_option maxRecDepth 100000 in
/-- C6 — counterexample: with maxRetries = 5 (the default for text calls)
the loop for attempt = 0..maxRetries makes 6 attempts of the wrapped call
when every attempt fails transiently, so "at most 5 attempts" is false. -/
theorem C6_counterexample_six_attempts :
    ¬ ((retryWithBackoff (fun _ => (Except.error "boom" : Except String Unit)) 5 2000).attempts ≤ 5) := by
  have h : (retryWithBackoff (fun _ => (Except.error "boom" : Except String Unit)) 5 2000).attempts = 6 := rfl
  omega

/-- C6 amended: with the default configuration a text call makes at most
maxRetries + 1 = 6 attempts of the wrapped call, and when the run fails
the error raised to the caller is the error of the last attempt made. -/
theorem C6_six_attempt_bound_and_last_error (fn : Nat → Except String α) (b : Nat) :
    (retryWithBackoff fn 5 b).attempts ≤ 6 ∧
    ∀ m, (retryWithBackoff fn 5 b).result = .error m →
      fn ((retryWithBackoff fn 5 b).attempts - 1) = .error m := by
  constructor
  · exact retryGo_attempts_le fn 5 b 6 0
  · intro m hres
    have h := retryGo_last_error fn 5 b 6 0 m (by omega) (by omega) hres
    simpa [retryWithBackoff] using h

set_option maxRecDepth 100000 in
theorem C6_six_attempt_bound_and_last_error_witness :
    (fun _ => (Except.error "boom" : Except String Unit))
      ((retryWithBackoff (fun _ => (Except.error "boom" : Except String Unit)) 5 2000).attempts - 1)
      = Except.error "boom" := by
  exact (C6_six_attempt_bound_and_last_error
    (fun _ => (Except.error "boom" : Except String Unit)) 2000).2 "boom" rfl

/-- C8: for a fixed error class the computed delay (jitter excluded) is
strictly increasing in the attempt number; overload delays are at least
5000 + 3000 per attempt, rate-limit delays at least 10000 + 5000 per
attempt, and unknown-transient delays are exactly baseDelay * 2 ^ attempt. -/
theorem C8_backoff_monotonic (m : String) (b a : Nat) (hb : 1 ≤ b) :
    computeDelay m b a < computeDelay m b (a + 1) ∧
    (isOverloadMsg m = true → 5000 + a * 3000 ≤ computeDelay m b a) ∧
    (isOverloadMsg m = false → isRateLimitMsg m = true →
      10000 + a * 5000 ≤ computeDelay m b a) ∧
    (isOverloadMsg m = false → isRateLimitMsg m = false →
      computeDelay m b a = b * 2 ^ a) := by
  have h2 : (2 : Nat) ^ a < 2 ^ (a + 1) := Nat.pow_lt_pow_succ (by omega)
  have hpow : b * 2 ^ a < b * 2 ^ (a + 1) := by
    exact mul_lt_mul_of_pos_left h2 (by omega)
  refine ⟨?_, ?_, ?_, ?_⟩
  · by_cases hov : isOverloadMsg m = true
    · simp only [computeDelay, hov, if_true]
      exact max_lt_max hpow (by omega)
    · by_cases hrl : isRateLimitMsg m = true
      · simp only [computeDelay, hov, hrl, if_true, if_false, Bool.false_eq_true, ite_false]
        exact max_lt_max hpow (by omega)
      · simp only [computeDelay, hov, hrl, Bool.false_eq_true, if_false, ite_false]
        exact hpow
  · intro hov
    simp only [computeDelay, hov, if_true]
    exact le_max_right _ _
  · intro hov hrl
    simp only [computeDelay, hov, hrl, if_true, Bool.false_eq_true, if_false, ite_false]
    exact le_max_right _ _
  · intro hov hrl
    simp only [computeDelay, hov, hrl, Bool.false_eq_true, if_false, ite_false]

theorem C8_backoff_monotonic_witness :
    computeDelay "503" 2000 0 < computeDelay "503" 2000 1 ∧
    5000 + 0 * 3000 ≤ computeDelay "503" 2000 0 := by
  have h := C8_backoff_monotonic "503" 2000 0 (by omega)
  exact ⟨h.1, h.2.1 (by decide)⟩

/-! ## Priority request queue (geminiService.ts lines 184-278) -/

/-- Request priority levels. -/
inductive QPriority
  | high
  | medium
  | low
deriving DecidableEq, Repr

/-- priorityOrder (geminiService.ts line 213). -/
def priorityOrder : QPriority → Nat
  | .high => 0
  | .medium => 1
  | .low => 2

/-- A queued request: identifier, priority and enqueue timestamp; the
opaque invocable payload and its resolution callbacks do not affect the
ordering and are omitted. -/
structure QueuedRequest where
  id : String
  priority : QPriority
  timestamp : Nat
deriving DecidableEq, Repr

/-- The insertion step of enqueue (geminiService.ts lines 212-223): the
new request is spliced in before the first queued request of strictly
lower priority (strictly greater priorityOrder value), else appended. -/
def enqueueInsert (r : QueuedRequest) : List QueuedRequest → List QueuedRequest
  | [] => [r]
  | x :: xs =>
    if priorityOrder r.priority < priorityOrder x.priority then r :: x :: xs
    else x :: enqueueInsert r xs

/-- Enqueue a batch of requests in order into an existing queue. -/
def enqueueAll (q : List QueuedRequest) (rs : List QueuedRequest) : List QueuedRequest :=
  rs.foldl (fun acc r => enqueueInsert r acc) q

/-- processQueue (geminiService.ts lines 230-258) shifts requests off the
front one at a time and executes each before the next; the execution
order is therefore the queue order. -/
def dequeueOrder : List QueuedRequest → List QueuedRequest
  | [] => []
  | r :: rs => r :: dequeueOrder rs

/-- Dequeue precedence: a request precedes another when it has strictly
higher priority, or equal priority and an enqueue timestamp that is not
later (strict priority order, FIFO within a priority level). -/
def queuePrec (a b : QueuedRequest) : Prop :=
  priorityOrder a.priority < priorityOrder b.priority ∨
    (priorityOrder a.priority = priorityOrder b.priority ∧ a.timestamp ≤ b.timestamp)

theorem dequeueOrder_eq_self : ∀ q : List QueuedRequest, dequeueOrder q = q := by
  intro q
  induction q with
  | nil => rfl
  | cons r rs ih => simp [dequeueOrder, ih]

theorem mem_enqueueInsert (r y : QueuedRequest) :
    ∀ q, y ∈ enqueueInsert r q ↔ y = r ∨ y ∈ q := by
  intro q
  induction q with
  | nil => simp [enqueueInsert]
  | cons x xs ih =>
    by_cases h : priorityOrder r.priority < priorityOrder x.priority
    · simp [enqueueInsert, h]
    · simp only [enqueueInsert, h, if_false, List.mem_cons, ih, ite_false]
      tauto

theorem pairwise_enqueueInsert (r : QueuedRequest) :
    ∀ q, q.Pairwise queuePrec → (∀ x ∈ q, x.timestamp ≤ r.timestamp) →
      (enqueueInsert r q).Pairwise queuePrec := by
  intro q
  induction q with
  | nil => intro _ _; simp [enqueueInsert]
  | cons x xs ih =>
    intro hpw hts
    rcases List.pairwise_cons.mp hpw with ⟨hx, hxs⟩
    by_cases h : priorityOrder r.priority < priorityOrder x.priority
    · simp only [enqueueInsert, h, if_true, ite_true]
      refine List.pairwise_cons.mpr ⟨?_, hpw⟩
      intro y hy
      rcases List.mem_cons.mp hy with hy | hy
      · rw [hy]
        exact Or.inl h
      · have hxy := hx y hy
        left
        rcases hxy with hlt | ⟨heq, _⟩
        · omega
        · omega
    · simp only [enqueueInsert, h, if_false, ite_false]
      refine List.pairwise_cons.mpr ⟨?_, ?_⟩
      · intro y hy
        rcases (mem_enqueueInsert r y xs).mp hy with hy | hy
        · rw [hy]
          have hxr : x.timestamp ≤ r.timestamp := hts x (by simp)
          rcases Nat.lt_or_ge (priorityOrder x.priority) (priorityOrder r.priority) with hlt | hge
          · exact Or.inl hlt
          · exact Or.inr ⟨by omega, hxr⟩
        · exact hx y hy
      · exact ih hxs (fun z hz => hts z (by simp [hz]))

theorem pairwise_enqueueAll :
    ∀ rs acc, acc.Pairwise queuePrec →
      (∀ x ∈ acc, ∀ r ∈ rs, x.timestamp ≤ r.timestamp) →
      rs.Pairwise (fun a b => a.timestamp ≤ b.timestamp) →
      (enqueueAll acc rs).Pairwise queuePrec := by
  intro rs
  induction rs with
  | nil => intro acc hacc _ _; simpa [enqueueAll] using hacc
  | cons r rs ih =>
    intro acc hacc hts hrs
    rcases List.pairwise_cons.mp hrs with ⟨hr, hrs2⟩
    have step : enqueueAll acc (r :: rs) = enqueueAll (enqueueInsert r acc) rs := rfl
    rw [step]
    refine ih (enqueueInsert r acc) ?_ ?_ hrs2
    · exact pairwise_enqueueInsert r acc hacc (fun x hx => hts x hx r (by simp))
    · intro x hx s hs
      rcases (mem_enqueueInsert r x acc).mp hx with hx | hx
      · subst hx
        exact hr s hs
      · exact hts x hx s (by simp [hs])

/-- C5: whenever a batch of requests is enqueued in timestamp order, the
dequeue (and hence execution) order of the resulting queue is strict
priority order — every high before every medium before every low — and
FIFO by enqueue time within equal priority; in particular a low request
enqueued at t0 followed by a high request enqueued at t1 > t0 is dequeued
after the high one. -/
theorem C5_priority_then_fifo_order :
    (∀ rs : List QueuedRequest,
      rs.Pairwise (fun a b => a.timestamp ≤ b.timestamp) →
      (dequeueOrder (enqueueAll [] rs)).Pairwise queuePrec) ∧
    (∀ (idL idH : String) (t0 t1 : Nat), t0 < t1 →
      dequeueOrder (enqueueAll []
          [⟨idL, QPriority.low, t0⟩, ⟨idH, QPriority.high, t1⟩]) =
        [⟨idH, QPriority.high, t1⟩, ⟨idL, QPriority.low, t0⟩]) := by
  constructor
  · intro rs hrs
    rw [dequeueOrder_eq_self]
    exact pairwise_enqueueAll rs [] (by simp) (by simp) hrs
  · intro idL idH t0 t1 _
    rfl

theorem C5_priority_then_fifo_order_witness :
    dequeueOrder (enqueueAll []
        [⟨"reqLow", QPriority.low, 0⟩, ⟨"reqHigh", QPriority.high, 1⟩]) =
      [⟨"reqHigh", QPriority.high, 1⟩, ⟨"reqLow", QPriority.low, 0⟩] ∧
    (dequeueOrder (enqueueAll []
        [⟨"reqLow", QPriority.low, 0⟩, ⟨"reqHigh", QPriority.high, 1⟩])).Pairwise queuePrec := by
  refine ⟨C5_priority_then_fifo_order.2 "reqLow" "reqHigh" 0 1 (by omega), ?_⟩
  exact C5_priority_then_fifo_order.1
    [⟨"reqLow", QPriority.low, 0⟩, ⟨"reqHigh", QPriority.high, 1⟩] (by simp)

/-! ## API resilience manager (apiResilienceUtils module) -/

/-- The shared availability status (interface APIStatus). Times are exact
rationals so the recovery estimate base * 1.5 ^ min(retryCount, 10) is
represented without rounding. -/
structure APIStatus where
  isAvailable : Bool
  lastError : Option String
  retryCount : Nat
  lastSuccessTime : Option ℚ
  estimatedRecoveryTime : Option ℚ

/-- The manager's initial status: available, zero retries. -/
def initialAPIStatus : APIStatus :=
  { isAvailable := true, lastError := none, retryCount := 0,
    lastSuccessTime := none, estimatedRecoveryTime := none }

/-- Base recovery estimate in milliseconds, by error class
(estimateRecoveryTime, lines 61-74): 5 minutes for overload, 1 hour for
quota, 2 minutes otherwise. -/
def recoveryBase (err : Option String) : ℚ :=
  match err with
  | some m =>
    if includes m "overloaded" || includes m "UNAVAILABLE" then 300000
    else if includes m "quota" then 3600000
    else 120000
  | none => 120000

/-- Everything observable about one updateStatus call: the new status,
whether the registered listeners were invoked, and whether the
user-facing recovery / outage notifications fired. -/
structure UpdateEffects where
  status : APIStatus
  listenersNotified : Bool
  recoveryNotified : Bool
  outageNotified : Bool

/-- updateStatus (APIResilienceManager, lines 37-59).  `showNotif` is the
showUserNotifications option (true by default).  On success the retry
count resets and the recovery notification fires only when the flag was
previously false; on failure the retry count increments, the recovery
time is re-estimated and the outage notification fires.  The registered
listeners are invoked unconditionally at the end of every call. -/
def updateStatus (st : APIStatus) (showNotif : Bool) (now : ℚ)
    (isAvailable : Bool) (error : Option String) : UpdateEffects :=
  let st1 := { st with isAvailable := isAvailable, lastError := error }
  if isAvailable then
    { status := { st1 with
        retryCount := 0,
        lastSuccessTime := some now,
        estimatedRecoveryTime := none },
      listenersNotified := true,
      recoveryNotified := showNotif && !st.isAvailable,
      outageNotified := false }
  else
    let rc := st1.retryCount + 1
    let est := recoveryBase error * ((3 : ℚ) / 2) ^ min rc 10
    { status := { st1 with
        retryCount := rc,
        estimatedRecoveryTime := some (now + est) },
      listenersNotified := true,
      recoveryNotified := false,
      outageNotified := showNotif }

/-- C7 — counterexample: a successful update while the status is already
available is not an availability transition, yet the registered listeners
are still notified, so "observers are notified only on transitions" is
false. -/
theorem C7_counterexample_notified_without_transition :
    (updateStatus initialAPIStatus true 0 true none).status.isAvailable
        = initialAPIStatus.isAvailable ∧
    (updateStatus initialAPIStatus true 0 true none).listenersNotified = true := by
  exact ⟨rfl, rfl⟩

/-- C7 amended: registered observers are notified on every status update,
whether or not the isAvailable flag changes; only the user-facing
recovery notification is gated on the unavailable-to-available
transition, and the outage notification fires on every failed update. -/
theorem C7_listeners_always_notified (st : APIStatus) (showNotif : Bool)
    (now : ℚ) (avail : Bool) (err : Option String) :
    (updateStatus st showNotif now avail err).listenersNotified = true ∧
    (updateStatus st showNotif now avail err).recoveryNotified
        = (avail && (showNotif && !st.isAvailable)) ∧
    (updateStatus st showNotif now avail err).outageNotified
        = (!avail && showNotif) := by
  cases avail <;> simp [updateStatus]

/-! ## Chapter-editing agent: the bounded refinement loop (agent module) -/

/-- Revision strategies (interface AgentDecision). -/
inductive EditStrategy
  | targetedEdit
  | regenerate
  | polish
  | skip
deriving DecidableEq, Repr

/-- The decision produced by analyzeAndDecide: strategy, free-text
reasoning, priority, estimated changes and a 0-100 confidence. -/
structure AgentDecision where
  strategy : EditStrategy
  reasoning : String
  priority : QPriority
  estimatedChanges : String
  confidence : Int
deriving DecidableEq, Repr

/-- The parsed JSON payload of the evaluation call (the fields the loop
consumes). -/
structure EvalParsed where
  qualityScore : Int
  changesApplied : List String
deriving DecidableEq, Repr

/-- What evaluateResult returns to the loop. -/
structure EvalOutcome where
  qualityScore : Int
  changesApplied : List String
deriving DecidableEq, Repr

/-- evaluateResult (agent module, lines 657-717): a parse failure of the
evaluation call (modelled as none) yields the fixed default score 75;
otherwise the parsed score and change list pass through. -/
def evaluateResult (parsed : Option EvalParsed) : EvalOutcome :=
  match parsed with
  | some e => { qualityScore := e.qualityScore, changesApplied := e.changesApplied }
  | none => { qualityScore := 75, changesApplied := ["Edits applied"] }

/-- The three external calls of one refinement cycle, as oracles:
decide (content, critique) models analyzeAndDecide together with its
internal heuristic fallback (it always yields some decision); execute
(content, critique, decision) models executeStrategy for the non-skip
strategies; evaluate (original, refined) models the evaluation call up to
JSON parsing, none meaning failure. -/
structure AgentOracles where
  decide : String → String → AgentDecision
  execute : String → String → AgentDecision → String
  evaluate : String → String → Option EvalParsed

/-- Trace record of one loop iteration: the decide inputs and output,
plus the execute output and evaluation score when those steps ran. -/
structure AgentCall where
  content : String
  critique : String
  decision : AgentDecision
  executed : Option String
  evalScore : Option Int
deriving DecidableEq, Repr

/-- The value of agentEditChapter, with a trace of the cycles performed. -/
structure EditingResult where
  refinedContent : String
  decision : AgentDecision
  qualityScore : Int
  changesApplied : List String
  calls : List AgentCall
deriving DecidableEq, Repr

/-- Critique annotation appended when confidence is low (agent module,
line 783). -/
def lowConfidenceNote : String :=
  "\n\nPREVIOUS ATTEMPT FAILED. Need complete regeneration following plan."

/-- Critique annotation appended after an insufficient targeted edit
(agent module, line 786). -/
def targetedInsufficientNote : String :=
  "\n\nTargeted edits not enough. Need deeper structural changes."

/-- Placeholder for the TypeScript lastDecision variable before the first
iteration assigns it; the loop body always runs at least once, so this
value is unreachable in agentEditChapter. -/
def unreachableDecision : AgentDecision :=
  { strategy := .skip, reasoning := "", priority := .low,
    estimatedChanges := "", confidence := 0 }

/-- The while loop of agentEditChapter (agent module, lines 736-793).
Arguments mirror the mutable state: iteration counter, current content,
critique notes (mutated in place by the escalation step), last quality
score and accumulated change list.  The fuel starts at maxIter and is
only consumed when the loop continues, which requires
iteration < maxIter, so fuel never runs out. -/
def agentLoop (o : AgentOracles) (maxIter : Nat) :
    Nat → Nat → String → String → Int → List String → EditingResult
  | 0, _, content, _, lastScore, changes =>
    { refinedContent := content, decision := unreachableDecision,
      qualityScore := lastScore, changesApplied := changes, calls := [] }
  | fuel + 1, iteration, content, critique, lastScore, changes =>
    let d := o.decide content critique
    if d.strategy = .skip then
      { refinedContent := content, decision := d, qualityScore := lastScore,
        changesApplied := changes,
        calls := [{ content := content, critique := critique, decision := d,
                    executed := none, evalScore := none }] }
    else
      let refined := o.execute content critique d
      let ev := evaluateResult (o.evaluate content refined)
      let changes2 := changes ++ ev.changesApplied
      let callRec : AgentCall :=
        { content := content, critique := critique, decision := d,
          executed := some refined, evalScore := some ev.qualityScore }
      if 70 ≤ ev.qualityScore then
        { refinedContent := refined, decision := d,
          qualityScore := ev.qualityScore, changesApplied := changes2,
          calls := [callRec] }
      else if maxIter ≤ iteration then
        { refinedContent := refined, decision := d,
          qualityScore := ev.qualityScore, changesApplied := changes2,
          calls := [callRec] }
      else
        let critique2 :=
          if d.confidence < 60 ∧ d.strategy ≠ .regenerate then
            critique ++ lowConfidenceNote
          else if d.strategy = .targetedEdit then
            critique ++ targetedInsufficientNote
          else critique
        let rest := agentLoop o maxIter fuel (iteration + 1) refined critique2
          ev.qualityScore changes2
        { rest with calls := callRec :: rest.calls }

/-- Inputs of agentEditChapter that the loop consumes. -/
structure EditingContext where
  chapterContent : String
  critiqueNotes : String

/-- agentEditChapter (agent module, lines 722-807): MAX_ITERATIONS = 2,
iteration starts at 1, lastQualityScore at 0, changes empty. -/
def agentEditChapter (o : AgentOracles) (ctx : EditingContext) : EditingResult :=
  agentLoop o 2 2 1 ctx.chapterContent ctx.critiqueNotes 0 []

theorem agentLoop_calls_le (o : AgentOracles) (maxIter : Nat) :
    ∀ fuel iteration content critique lastScore changes,
      (agentLoop o maxIter fuel iteration content critique lastScore changes).calls.length
        ≤ fuel := by
  intro fuel
  induction fuel with
  | zero => intro iteration content critique lastScore changes; simp [agentLoop]
  | succ f ih =>
    intro iteration content critique lastScore changes
    simp only [agentLoop]
    split
    · simp
    · split
      · simp
      · split
        · simp
        · simp only [List.length_cons]
          have h := ih (iteration + 1)
          exact Nat.succ_le_succ (h _ _ _ _)

/-- C1: for every oracle behaviour and input, agentEditChapter performs
at most MAX_ITERATIONS = 2 decide/execute/evaluate cycles; being a total
function, it always terminates and returns a (defined) content string. -/
theorem C1_bounded_refinement (o : AgentOracles) (ctx : EditingContext) :
    (agentEditChapter o ctx).calls.length ≤ 2 := by
  exact agentLoop_calls_le o 2 2 1 ctx.chapterContent ctx.critiqueNotes 0 []

/-- C4: when the first decide call returns strategy skip, the loop
returns the input content unchanged and neither execute nor evaluate is
called in that run. -/
theorem C4_skip_short_circuit (o : AgentOracles) (ctx : EditingContext)
    (h : (o.decide ctx.chapterContent ctx.critiqueNotes).strategy = EditStrategy.skip) :
    (agentEditChapter o ctx).refinedContent = ctx.chapterContent ∧
    ∀ c ∈ (agentEditChapter o ctx).calls, c.executed = none ∧ c.evalScore = none := by
  unfold agentEditChapter
  simp [agentLoop, h]

/-- C10: a failed (unparsable or thrown) evaluation call yields the fixed
default score 75 from evaluateResult; since 75 meets the quality
threshold 70, the loop accepts the current revision and terminates within
the same cycle, so an evaluation failure never causes a further
refinement iteration. -/
theorem C10_eval_failure_default_75_terminates (o : AgentOracles) (ctx : EditingContext)
    (h1 : (o.decide ctx.chapterContent ctx.critiqueNotes).strategy ≠ EditStrategy.skip)
    (h2 : o.evaluate ctx.chapterContent
        (o.execute ctx.chapterContent ctx.critiqueNotes
          (o.decide ctx.chapterContent ctx.critiqueNotes)) = none) :
    evaluateResult none
        = { qualityScore := 75, changesApplied := ["Edits applied"] } ∧
    (agentEditChapter o ctx).qualityScore = 75 ∧
    (agentEditChapter o ctx).calls.length = 1 ∧
    (agentEditChapter o ctx).refinedContent
        = o.execute ctx.chapterContent ctx.critiqueNotes
            (o.decide ctx.chapterContent ctx.critiqueNotes) := by
  refine ⟨rfl, ?_⟩
  unfold agentEditChapter
  simp [agentLoop, h1, h2, evaluateResult]

/-- Oracle behaviour for the C4 witness: decide always answers skip. -/
def c4Oracles : AgentOracles :=
  ⟨fun _ _ => ⟨.skip, "strong", .low, "0", 90⟩,
    fun content _ _ => content ++ "!",
    fun _ _ => some ⟨80, []⟩⟩

/-- Input for the C4 witness. -/
def c4Ctx : EditingContext := ⟨"draft text", "CHAPTER IS STRONG"⟩

theorem C4_skip_short_circuit_witness :
    (agentEditChapter c4Oracles c4Ctx).refinedContent = "draft text" := by
  exact (C4_skip_short_circuit c4Oracles c4Ctx rfl).1

/-- Oracle behaviour for the C10 witness: decide answers polish and every
evaluation call fails to parse. -/
def c10Oracles : AgentOracles :=
  ⟨fun _ _ => ⟨.polish, "minor", .low, "5", 65⟩,
    fun content _ _ => content ++ "*",
    fun _ _ => none⟩

/-- Input for the C10 witness. -/
def c10Ctx : EditingContext := ⟨"chapter body", "minor issues"⟩

theorem C10_eval_failure_default_75_terminates_witness :
    (agentEditChapter c10Oracles c10Ctx).qualityScore = 75 ∧
    (agentEditChapter c10Oracles c10Ctx).calls.length = 1 := by
  have h := C10_eval_failure_default_75_terminates c10Oracles c10Ctx (by decide) rfl
  exact ⟨h.2.1, h.2.2.1⟩

/-- Oracle behaviour for the forced-escalation scenario of C3: every
decide call answers targeted-edit with confidence 50 and every
evaluation scores 60. -/
def c3Oracles : AgentOracles :=
  ⟨fun _ _ => ⟨.targetedEdit, "language issues", .medium, "15", 50⟩,
    fun content _ _ => content ++ "+",
    fun _ _ => some ⟨60, ["tweaked"]⟩⟩

/-- Input for the forced-escalation scenario of C3. -/
def c3Ctx : EditingContext := ⟨"draft", "too many adjectives"⟩

/-- C3 — counterexample: under an oracle that decides targeted-edit with
confidence 50 in iteration 1 and whose evaluation returns 60, iteration 2
runs, yet its strategy is again targeted-edit, not regenerate: the code
only annotates the critique for the next decide call, it cannot force the
returned strategy. -/
theorem C3_counterexample_no_forced_regenerate :
    (agentEditChapter c3Oracles c3Ctx).calls.map (fun c => c.decision.strategy)
        = [EditStrategy.targetedEdit, EditStrategy.targetedEdit] ∧
    (agentEditChapter c3Oracles c3Ctx).calls.map (fun c => c.evalScore)
        = [some 60, some 60] ∧
    (agentEditChapter c3Oracles c3Ctx).decision.strategy ≠ EditStrategy.regenerate := by
  refine ⟨rfl, rfl, by intro h; cases h⟩

/-- One continuing iteration of the loop: when the decision is not skip,
the evaluation score is below the threshold and the iteration bound is
not yet reached, the loop escalates the critique and recurses. -/
theorem agentLoop_continue (o : AgentOracles) (maxIter fuel iteration : Nat)
    (content critique : String) (lastScore : Int) (changes : List String)
    (hskip : ¬ ((o.decide content critique).strategy = EditStrategy.skip))
    (hlow : (evaluateResult (o.evaluate content
        (o.execute content critique (o.decide content critique)))).qualityScore < 70)
    (hiter : iteration < maxIter) :
    agentLoop o maxIter (fuel + 1) iteration content critique lastScore changes
      = { agentLoop o maxIter fuel (iteration + 1)
            (o.execute content critique (o.decide content critique))
            (if (o.decide content critique).confidence < 60 ∧
                (o.decide content critique).strategy ≠ EditStrategy.regenerate then
              critique ++ lowConfidenceNote
            else if (o.decide content critique).strategy = EditStrategy.targetedEdit then
              critique ++ targetedInsufficientNote
            else critique)
            (evaluateResult (o.evaluate content
              (o.execute content critique (o.decide content critique)))).qualityScore
            (changes ++ (evaluateResult (o.evaluate content
              (o.execute content critique (o.decide content critique)))).changesApplied)
          with calls :=
            { content := content, critique := critique,
              decision := o.decide content critique,
              executed := some (o.execute content critique (o.decide content critique)),
              evalScore := some (evaluateResult (o.evaluate content
                (o.execute content critique (o.decide content critique)))).qualityScore }
              :: (agentLoop o maxIter fuel (iteration + 1)
                (o.execute content critique (o.decide content critique))
                (if (o.decide content critique).confidence < 60 ∧
                    (o.decide content critique).strategy ≠ EditStrategy.regenerate then
                  critique ++ lowConfidenceNote
                else if (o.decide content critique).strategy = EditStrategy.targetedEdit then
                  critique ++ targetedInsufficientNote
                else critique)
                (evaluateResult (o.evaluate content
                  (o.execute content critique (o.decide content critique)))).qualityScore
                (changes ++ (evaluateResult (o.evaluate content
                  (o.execute content critique (o.decide content critique)))).changesApplied)).calls } := by
  simp only [agentLoop]
  rw [if_neg hskip]
  rw [if_neg (show ¬ (70 ≤ (evaluateResult (o.evaluate content
    (o.execute content critique (o.decide content critique)))).qualityScore) by omega)]
  rw [if_neg (show ¬ (maxIter ≤ iteration) by omega)]

/-- At an iteration that has reached the bound, the loop performs exactly
one more cycle whatever the oracle answers, and the critique that cycle
received is the current critique. -/
theorem agentLoop_final_critique (o : AgentOracles) (maxIter fuel iteration : Nat)
    (content critique : String) (lastScore : Int) (changes : List String)
    (hiter : maxIter ≤ iteration) :
    (agentLoop o maxIter (fuel + 1) iteration content critique lastScore
        changes).calls.map (fun c => c.critique) = [critique] := by
  simp only [agentLoop]
  split
  · simp
  · split
    · simp
    · simp

/-- C3 amended: in the scenario of the claim (iteration 1 decides
targeted-edit with confidence 50 and the evaluation returns 60) a second
iteration runs and its decide call receives the critique annotated with
the forced-regeneration demand; the strategy iteration 2 actually uses is
whatever that decide call returns. -/
theorem C3_escalation_annotates_critique (o : AgentOracles) (ctx : EditingContext)
    (h1 : (o.decide ctx.chapterContent ctx.critiqueNotes).strategy = EditStrategy.targetedEdit)
    (h2 : (o.decide ctx.chapterContent ctx.critiqueNotes).confidence = 50)
    (h3 : o.evaluate ctx.chapterContent
        (o.execute ctx.chapterContent ctx.critiqueNotes
          (o.decide ctx.chapterContent ctx.critiqueNotes))
        = some ⟨60, ["tweaked"]⟩) :
    (agentEditChapter o ctx).calls.map (fun c => c.critique)
        = [ctx.critiqueNotes, ctx.critiqueNotes ++ lowConfidenceNote] := by
  have hskip : ¬ ((o.decide ctx.chapterContent ctx.critiqueNotes).strategy
      = EditStrategy.skip) := by
    simp [h1]
  have hconf : (o.decide ctx.chapterContent ctx.critiqueNotes).confidence < 60 ∧
      (o.decide ctx.chapterContent ctx.critiqueNotes).strategy ≠ EditStrategy.regenerate := by
    refine ⟨by rw [h2]; norm_num, by simp [h1]⟩
  have hlow : (evaluateResult (o.evaluate ctx.chapterContent
      (o.execute ctx.chapterContent ctx.critiqueNotes
        (o.decide ctx.chapterContent ctx.critiqueNotes)))).qualityScore < 70 := by
    rw [h3]
    norm_num [evaluateResult]
  unfold agentEditChapter
  rw [agentLoop_continue o 2 1 1 ctx.chapterContent ctx.critiqueNotes 0 [] hskip hlow
    (by omega)]
  rw [if_pos hconf]
  simp only [List.map_cons]
  rw [agentLoop_final_critique o 2 0 2 _ _ _ _ (by omega)]

theorem C3_escalation_annotates_critique_witness :
    (agentEditChapter c3Oracles c3Ctx).calls.map (fun c => c.critique)
        = ["too many adjectives", "too many adjectives" ++ lowConfidenceNote] := by
  exact C3_escalation_annotates_critique c3Oracles c3Ctx rfl rfl rfl

/-! ## Plan-generation phase failure handling
    (src/hooks/useBookGenerator.ts, chapter-plan step and the enclosing
    try/catch of continueGeneration) -/

/-- Generation steps of the session state machine (types.ts,
GenerationStep); only the constructors this phase touches are exercised
here but the whole enumeration is kept. -/
inductive GenerationStep
  | idle
  | userInput
  | generatingOutline
  | waitingForOutlineApproval
  | extractingCharacters
  | extractingWorldName
  | extractingMotifs
  | generatingChapterPlan
  | generatingChapters
  | finalEditingPass
  | professionalPolish
  | finalizingTransitions
  | compilingBook
  | done
  | error
deriving DecidableEq, Repr

/-- One entry of the parsed chapter plan; its inner fields do not affect
the failure handling, so it is kept opaque. -/
structure PlanEntry where
  data : String
deriving DecidableEq, Repr

/-- The shapes the structured plan response can parse into:
invalid JSON (JSON.parse throws), a JSON document without a usable
chapters array (missing key or not an array), or a chapters array. -/
inductive PlanResponse
  | invalidJson
  | missingChapters
  | chapters (entries : List PlanEntry)
deriving DecidableEq, Repr

/-- The wrapped error message thrown by the plan-parsing catch block
(useBookGenerator.ts lines 392-394; the raw text elides the inner
details). -/
def planParseError : String :=
  "Failed to generate a valid and parseable chapter plan."

/-- The parse-and-validate step (useBookGenerator.ts lines 385-395):
JSON.parse failure, a missing or non-array chapters field, and an empty
chapters array are all fatal errors; no fallback plan is substituted. -/
def parseChapterPlan : PlanResponse → Except String (List PlanEntry)
  | .invalidJson => .error planParseError
  | .missingChapters => .error planParseError
  | .chapters [] => .error planParseError
  | .chapters (e :: es) => .ok (e :: es)

/-- The session-state fragment that the plan phase and the enclosing
catch manipulate: current step, surfaced error message, stored plan, and
whether the state was persisted to local storage. -/
structure GenSessionState where
  currentStep : GenerationStep
  errorMsg : Option String
  parsedChapterPlans : Option (List PlanEntry)
  persisted : Bool
deriving DecidableEq, Repr

/-- The plan-generation phase with the enclosing error handler
(useBookGenerator.ts lines 385-395 and 812-817): on success the plan is
stored, the state persisted and the step advances to chapter generation;
on a parse failure the thrown error reaches the outer catch, which
records the message, sets the Error step and persists the session. -/
def runPlanGenerationPhase (resp : PlanResponse) (st : GenSessionState) :
    GenSessionState :=
  match parseChapterPlan resp with
  | .ok entries =>
    { st with
        parsedChapterPlans := some entries,
        persisted := true,
        currentStep := .generatingChapters }
  | .error e =>
    { st with
        errorMsg := some e,
        currentStep := .error,
        persisted := true }

/-- C9: whenever the structured plan response fails to parse into the
expected chapters array shape, the phase fails: no fallback plan is
substituted (the stored plan is unchanged), the session moves to the
Error step, the session is persisted, and the parse error message is
surfaced. -/
theorem C9_plan_parse_failure_is_fatal (resp : PlanResponse) (st : GenSessionState)
    (e : String) (h : parseChapterPlan resp = .error e) :
    (runPlanGenerationPhase resp st).currentStep = GenerationStep.error ∧
    (runPlanGenerationPhase resp st).errorMsg = some e ∧
    (runPlanGenerationPhase resp st).persisted = true ∧
    (runPlanGenerationPhase resp st).parsedChapterPlans = st.parsedChapterPlans := by
  simp [runPlanGenerationPhase, h]

theorem C9_plan_parse_failure_is_fatal_witness :
    (runPlanGenerationPhase PlanResponse.invalidJson
        ⟨GenerationStep.generatingChapterPlan, none, none, false⟩).currentStep
      = GenerationStep.error ∧
    (runPlanGenerationPhase PlanResponse.invalidJson
        ⟨GenerationStep.generatingChapterPlan, none, none, false⟩).errorMsg
      = some planParseError := by
  have h := C9_plan_parse_failure_is_fatal PlanResponse.invalidJson
    ⟨GenerationStep.generatingChapterPlan, none, none, false⟩ planParseError rfl
  exact ⟨h.1, h.2.1⟩
